import Mathlib

/-!
Shallow embedding of the USB-UART bridge firmware (src/src/main.c).

Bytes are modelled as natural numbers (the C `char`/`uint8_t` values that
actually flow through the program are 0..255; none of the verified
properties depend on wrap-around, so no modular reduction is needed).

Receive side (`uart_cb`, RX half): the interrupt callback accumulates
bytes into the 128-byte `rx_buf` at cursor `rx_buf_pos`; on a CR/LF byte
with a non-empty buffer it NUL-terminates the buffer, prints it
(modelled by appending the printed C string to a `published` log) and
resets the cursor.  `cmd_read_last` prints `rx_buf` with `%s`, i.e. the
bytes up to the first NUL.

Transmit side: `uart_send_string` waits for `tx_busy` to clear, sets it,
writes each byte to the transport (modelled by appending to a `sent`
log) and then blocks on `tx_done_sem` with a 100 ms timeout.  The
interrupt side of the rendezvous is abstracted by two oracle booleans:
`ready` (device_is_ready) and `completes` (the TX-ready interrupt fires
and gives the semaphore within the timeout).  In the sequential
embedding a call that starts with `tx_busy = true` never leaves the
spin-wait loop, which is modelled by the return value `none`.
`cmd_send_string` zeroes the 256-byte `string_buffer`, checks
`input_len < MAX_BUFFER_SIZE - 2`, copies the payload, appends CR and
LF, and sends `input_len + 2` bytes.
-/

set_option maxRecDepth 40000

namespace UsbUart

/-- Capacity of the send buffer `string_buffer` (MAX_BUFFER_SIZE in main.c). -/
def MAX_BUFFER_SIZE : Nat := 256

/-- Capacity of the receive line buffer `rx_buf` (MSG_SIZE in main.c). -/
def MSG_SIZE : Nat := 128

/-- TERMINATING_CHAR in main.c: the carriage-return byte. -/
def CR : Nat := 13

/-- The line-feed byte appended after TERMINATING_CHAR. -/
def LF : Nat := 10

/-- Errno values used by the C code (returned negated). -/
def ENODEV : Int := 19

def EINVAL : Int := 22

/-- k_sem_take returns -EAGAIN when the timeout expires. -/
def EAGAIN : Int := 11

/-- State of the receive framer: the 128-byte `rx_buf` array, the write
cursor `rx_buf_pos`, and a log of the lines printed by
`printk("Received: %s\n", rx_buf)` at each publication. -/
structure RxState where
  rx_buf : List Nat
  rx_buf_pos : Nat
  published : List (List Nat)
deriving DecidableEq

/-- C string semantics of `%s`: the bytes before the first NUL. -/
def cString (l : List Nat) : List Nat := l.takeWhile (fun b => decide (b ≠ 0))

/-- Initial receive state: `rx_buf` is a zero-initialised static array,
`rx_buf_pos` is 0, nothing printed yet. -/
def initRx : RxState := ⟨List.replicate MSG_SIZE 0, 0, []⟩

/-- One iteration of the RX loop body in `uart_cb` for a fetched byte
`c`: publish on CR/LF with a non-empty buffer, else append while the
cursor is below MSG_SIZE - 1, else drop the byte. -/
def rxStep (s : RxState) (c : Nat) : RxState :=
  if (c = LF ∨ c = CR) ∧ 0 < s.rx_buf_pos then
    let buf := s.rx_buf.set s.rx_buf_pos 0
    { rx_buf := buf, rx_buf_pos := 0, published := s.published ++ [cString buf] }
  else if s.rx_buf_pos < MSG_SIZE - 1 then
    { s with rx_buf := s.rx_buf.set s.rx_buf_pos c, rx_buf_pos := s.rx_buf_pos + 1 }
  else
    s

/-- The RX half of `uart_cb` applied to a whole delivered byte sequence. -/
def uart_cb_rx (s : RxState) (cs : List Nat) : RxState := cs.foldl rxStep s

/-- Processing a concatenation processes the two parts in order. -/
theorem uart_cb_rx_append (s : RxState) (a b : List Nat) :
    uart_cb_rx s (a ++ b) = uart_cb_rx (uart_cb_rx s a) b := by
  simp only [uart_cb_rx]
  rw [List.foldl_append]

/-- Shell command `custom read` (`cmd_read_last`): prints `rx_buf` with
`%s`, i.e. returns the bytes of the live buffer up to the first NUL. -/
def read_last (s : RxState) : List Nat := cString s.rx_buf

/-- Whole-system state touched by the transmit path: the send buffer,
the busy flag, the completion semaphore count, the receive state, and a
log of every byte handed to `uart_poll_out` (what the transport saw). -/
structure SysState where
  string_buffer : List Nat
  tx_busy : Bool
  tx_done_sem : Nat
  rx : RxState
  sent : List Nat
deriving DecidableEq

/-- Initial system state: zeroed send buffer, idle, semaphore at 0. -/
def initSys : SysState :=
  ⟨List.replicate MAX_BUFFER_SIZE 0, false, 0, initRx, []⟩

/-- The `uart_send_string` routine.  `ready` is the `device_is_ready`
oracle; `completes` tells whether the TX-ready interrupt gives
`tx_done_sem` within the 100 ms timeout (clearing `tx_busy`).  A call
entered with `tx_busy = true` spins forever in the sequential embedding
and is modelled by the result `none`. -/
def uart_send_string (ready completes : Bool) (str : List Nat) (len : Nat)
    (s : SysState) : Option Int × SysState :=
  if ready = false then (some (-ENODEV), s)
  else if s.tx_busy then (none, s)
  else
    let s1 := { s with tx_busy := true, sent := s.sent ++ str.take len }
    if completes then (some 0, { s1 with tx_busy := false })
    else (some (-EAGAIN), s1)

/-- Shell command `custom send` (`cmd_send_string`) for a well-formed
invocation (argc = 2) with payload `payload` (the bytes of argv[1], a
NUL-free C string, so `strlen` is its length).  The buffer is zeroed
first; if `input_len < MAX_BUFFER_SIZE - 2` the payload is copied, CR
and LF are appended and `input_len + 2` bytes are sent, else the
command reports "Input too long" and returns -EINVAL. -/
def cmd_send_string (ready completes : Bool) (payload : List Nat)
    (s : SysState) : Option Int × SysState :=
  let s0 := { s with string_buffer := List.replicate MAX_BUFFER_SIZE 0 }
  let n := payload.length
  if n < MAX_BUFFER_SIZE - 2 then
    let buf := ((payload ++ List.replicate (MAX_BUFFER_SIZE - n) 0).set n CR).set
      (n + 1) LF
    uart_send_string ready completes buf (n + 2) { s0 with string_buffer := buf }
  else
    (some (-EINVAL), s0)

/-- Writing at offset `a.length + k` into `a ++ b` writes at offset `k`
of `b`. -/
theorem set_append_add (a b : List Nat) (k c : Nat) :
    (a ++ b).set (a.length + k) c = a ++ b.set k c := by
  rw [List.set_append, if_neg (by omega), Nat.add_sub_cancel_left]

/-- Writing at offset `a.length` into `a ++ b` writes at offset 0 of `b`. -/
theorem set_append_len (a b : List Nat) (c : Nat) :
    (a ++ b).set a.length c = a ++ b.set 0 c := by
  have h := set_append_add a b 0 c
  rw [Nat.add_zero] at h
  exact h

/-- The printed C string of `l ++ r` when no byte of `l` is NUL. -/
theorem cString_append_of_ne (l r : List Nat) (h : ∀ c ∈ l, c ≠ 0) :
    cString (l ++ r) = l ++ cString r := by
  induction l with
  | nil => simp
  | cons a t ih =>
    have ha : a ≠ 0 := h a (List.mem_cons_self a t)
    have ht : ∀ c ∈ t, c ≠ 0 := fun c hc => h c (List.mem_cons_of_mem a hc)
    simp only [List.cons_append, cString, List.takeWhile_cons, decide_eq_true_eq,
      if_pos ha]
    exact congrArg (a :: ·) (ih ht)

/-- The printed C string stops at a leading NUL. -/
theorem cString_cons_zero (r : List Nat) : cString (0 :: r) = [] := by
  simp [cString, List.takeWhile_cons]

/-- Accumulation shape of the RX loop: starting from a buffer
`acc ++ rest` with the cursor at `acc.length`, a run of non-terminator
bytes `p` that stays below the capacity bound overwrites the front of
`rest` in place and advances the cursor past `p`. -/
theorem uart_cb_rx_accum (p : List Nat) :
    ∀ (acc rest : List Nat) (pubs : List (List Nat)),
      (∀ c ∈ p, c ≠ LF ∧ c ≠ CR) →
      acc.length + p.length ≤ MSG_SIZE - 1 →
      p.length ≤ rest.length →
      uart_cb_rx ⟨acc ++ rest, acc.length, pubs⟩ p =
        ⟨(acc ++ p) ++ rest.drop p.length, acc.length + p.length, pubs⟩ := by
  induction p with
  | nil =>
    intro acc rest pubs _ _ _
    simp [uart_cb_rx]
  | cons c p ih =>
    intro acc rest pubs hnt hlen hrest
    cases rest with
    | nil => simp at hrest
    | cons r rest =>
      have hc := hnt c (List.mem_cons_self c p)
      have hlen' : acc.length + (p.length + 1) ≤ MSG_SIZE - 1 := by
        simpa using hlen
      have hstep : rxStep ⟨acc ++ r :: rest, acc.length, pubs⟩ c =
          ⟨(acc ++ [c]) ++ rest, acc.length + 1, pubs⟩ := by
        rw [rxStep]
        rw [if_neg (fun h => h.1.elim hc.1 hc.2)]
        rw [if_pos (show acc.length < MSG_SIZE - 1 by omega)]
        simp [set_append_len]
      have hrun : uart_cb_rx ⟨acc ++ r :: rest, acc.length, pubs⟩ (c :: p) =
          uart_cb_rx ⟨(acc ++ [c]) ++ rest, acc.length + 1, pubs⟩ p := by
        rw [uart_cb_rx, uart_cb_rx, List.foldl_cons, hstep]
      rw [hrun]
      have hlen2 : acc.length + 1 = (acc ++ [c]).length := by simp
      rw [hlen2]
      rw [ih (acc ++ [c]) rest pubs
        (fun b hb => hnt b (List.mem_cons_of_mem c hb))
        (by simp only [List.length_append, List.length_singleton]; omega)
        (by simp only [List.length_cons] at hrest
            exact Nat.le_of_succ_le_succ hrest)]
      simp only [List.length_cons, List.drop_succ_cons, RxState.mk.injEq,
        List.length_append, List.length_singleton, List.length_nil]
      refine ⟨by simp, by omega, trivial⟩

/-- One RX step keeps the write cursor at or below MSG_SIZE - 1. -/
theorem rxStep_pos_le (s : RxState) (c : Nat) (h : s.rx_buf_pos ≤ MSG_SIZE - 1) :
    (rxStep s c).rx_buf_pos ≤ MSG_SIZE - 1 := by
  rw [rxStep]
  split
  · simp
  · split
    · rename_i hlt
      exact hlt
    · exact h

/-- The RX loop keeps the write cursor at or below MSG_SIZE - 1. -/
theorem uart_cb_rx_pos_le (cs : List Nat) :
    ∀ s : RxState, s.rx_buf_pos ≤ MSG_SIZE - 1 →
      (uart_cb_rx s cs).rx_buf_pos ≤ MSG_SIZE - 1 := by
  induction cs with
  | nil => intro s h; exact h
  | cons c cs ih => intro s h; exact ih (rxStep s c) (rxStep_pos_le s c h)

/-- One RX step keeps the buffer 128 bytes long with a NUL in its last
slot (the last slot is only ever written by the publish branch, with 0). -/
theorem rxStep_buf_inv (s : RxState) (c : Nat)
    (h1 : s.rx_buf.length = MSG_SIZE)
    (h2 : s.rx_buf.getD (MSG_SIZE - 1) 0 = 0) :
    (rxStep s c).rx_buf.length = MSG_SIZE ∧
      (rxStep s c).rx_buf.getD (MSG_SIZE - 1) 0 = 0 := by
  have hlast : MSG_SIZE - 1 < s.rx_buf.length := by
    rw [h1]; decide
  rw [rxStep]
  split
  · refine ⟨by simp [List.length_set, h1], ?_⟩
    have hb : MSG_SIZE - 1 < (s.rx_buf.set s.rx_buf_pos 0).length := by
      rw [List.length_set, h1]; decide
    rw [List.getD_eq_getElem _ _ hb, List.getElem_set]
    split
    · rfl
    · rw [← List.getD_eq_getElem _ 0 hlast]
      exact h2
  · split
    · rename_i hlt
      refine ⟨by simp [List.length_set, h1], ?_⟩
      have hb : MSG_SIZE - 1 < (s.rx_buf.set s.rx_buf_pos c).length := by
        rw [List.length_set, h1]; decide
      rw [List.getD_eq_getElem _ _ hb,
        List.getElem_set_ne (by omega) hb]
      rw [← List.getD_eq_getElem _ 0 hlast]
      exact h2
    · exact ⟨h1, h2⟩

/-- The RX loop keeps the buffer 128 bytes long with a NUL last slot. -/
theorem uart_cb_rx_buf_inv (cs : List Nat) :
    ∀ s : RxState, s.rx_buf.length = MSG_SIZE →
      s.rx_buf.getD (MSG_SIZE - 1) 0 = 0 →
      (uart_cb_rx s cs).rx_buf.length = MSG_SIZE ∧
        (uart_cb_rx s cs).rx_buf.getD (MSG_SIZE - 1) 0 = 0 := by
  induction cs with
  | nil => intro s h1 h2; exact ⟨h1, h2⟩
  | cons c cs ih =>
    intro s h1 h2
    have h := rxStep_buf_inv s c h1 h2
    exact ih (rxStep s c) h.1 h.2

/-- With the buffer full, non-terminator bytes are dropped: the state is
left completely unchanged. -/
theorem uart_cb_rx_full_drop (cs : List Nat) :
    ∀ s : RxState, s.rx_buf_pos = MSG_SIZE - 1 →
      (∀ c ∈ cs, c ≠ LF ∧ c ≠ CR) → uart_cb_rx s cs = s := by
  induction cs with
  | nil => intro s _ _; rfl
  | cons c cs ih =>
    intro s hp hnt
    have hc := hnt c (List.mem_cons_self c cs)
    have hstep : rxStep s c = s := by
      rw [rxStep]
      rw [if_neg (fun h => h.1.elim hc.1 hc.2)]
      rw [if_neg (by rw [hp]; omega)]
    have hrun : uart_cb_rx s (c :: cs) = uart_cb_rx (rxStep s c) cs := by
      rw [uart_cb_rx, uart_cb_rx, List.foldl_cons]
    rw [hrun, hstep]
    exact ih s hp (fun b hb => hnt b (List.mem_cons_of_mem c hb))

/-- A list one longer than `n` whose slot `n` holds 0 has `[0]` as its
drop at `n`. -/
theorem drop_last_of_getD (l : List Nat) :
    ∀ n : Nat, l.length = n + 1 → l.getD n 0 = 0 → l.drop n = [0] := by
  induction l with
  | nil =>
    intro n h1 _
    simp at h1
  | cons a t ih =>
    intro n h1 h2
    cases n with
    | zero =>
      have ht : t = [] := by
        have h0 : t.length = 0 := by simpa using h1
        exact List.length_eq_zero.mp h0
      have ha : a = 0 := by simpa using h2
      simp [ht, ha]
    | succ m =>
      have h1m : t.length = m + 1 := by simpa using h1
      have h2m : t.getD m 0 = 0 := by simpa using h2
      simpa [List.drop_succ_cons] using ih m h1m h2m

/-- Publishing step: a terminator arriving with a non-empty buffer of
the shape `p ++ zeros` NUL-terminates in place, logs the printed line,
and resets the cursor. -/
theorem rxStep_publish (p : List Nat) (t k : Nat) (pubs : List (List Nat))
    (hne : p ≠ []) (ht : t = LF ∨ t = CR) :
    rxStep ⟨p ++ List.replicate (k + 1) 0, p.length, pubs⟩ t =
      ⟨p ++ List.replicate (k + 1) 0, 0,
        pubs ++ [cString (p ++ List.replicate (k + 1) 0)]⟩ := by
  rw [rxStep, if_pos ⟨ht, List.length_pos.mpr hne⟩]
  simp [set_append_len, List.replicate_succ]

/-- Claim C2 (amended): delivering, from the initial state, a non-empty
payload of at most MSG_SIZE - 1 bytes that are neither terminators nor
NUL, followed by a single terminator, makes `read_last` return exactly
the payload. -/
theorem claim_C2_amended (p : List Nat) (t : Nat)
    (hne : p ≠ [])
    (hlen : p.length ≤ MSG_SIZE - 1)
    (hbytes : ∀ c ∈ p, c ≠ LF ∧ c ≠ CR ∧ c ≠ 0)
    (ht : t = LF ∨ t = CR) :
    read_last (uart_cb_rx initRx (p ++ [t])) = p := by
  have hM : MSG_SIZE = 128 := rfl
  have hnt : ∀ c ∈ p, c ≠ LF ∧ c ≠ CR :=
    fun c hc => ⟨(hbytes c hc).1, (hbytes c hc).2.1⟩
  have h0 : ∀ c ∈ p, c ≠ 0 := fun c hc => (hbytes c hc).2.2
  have hsplit : uart_cb_rx initRx (p ++ [t]) =
      uart_cb_rx (uart_cb_rx initRx p) [t] := uart_cb_rx_append initRx p [t]
  have hrun1 : uart_cb_rx initRx p =
      ⟨p ++ List.replicate (MSG_SIZE - p.length) 0, p.length, []⟩ := by
    have hacc := uart_cb_rx_accum p [] (List.replicate MSG_SIZE 0) [] hnt
      (by simp only [List.length_nil, Nat.zero_add]; exact hlen)
      (by rw [List.length_replicate]; omega)
    simpa [initRx, List.drop_replicate] using hacc
  have hk : MSG_SIZE - p.length = (MSG_SIZE - 1 - p.length) + 1 := by omega
  have hone : uart_cb_rx ⟨p ++ List.replicate (MSG_SIZE - p.length) 0,
      p.length, []⟩ [t] =
      rxStep ⟨p ++ List.replicate (MSG_SIZE - p.length) 0, p.length, []⟩ t := rfl
  rw [hsplit, hrun1, hone, hk, rxStep_publish p t _ [] hne ht]
  rw [read_last]
  simp only [List.replicate_succ]
  rw [cString_append_of_ne p _ h0, cString_cons_zero, List.append_nil]

/-- Witness for C2 (amended) at the spec's own concrete scenario:
bytes a, b, CR give read_last = "ab". -/
theorem claim_C2_witness :
    read_last (uart_cb_rx initRx ([97, 98] ++ [CR])) = [97, 98] :=
  claim_C2_amended [97, 98] CR (by decide) (by decide) (by decide) (Or.inr rfl)

/-- Counterexample to C2 as stated: a 128-byte payload followed by a
single final terminator contains exactly one terminator, at the end,
but `read_last` returns only the first 127 bytes (the 128th byte was
silently dropped by the full-buffer guard), not the whole payload. -/
theorem claim_C2_counterexample :
    read_last (uart_cb_rx initRx (List.replicate MSG_SIZE 97 ++ [CR])) ≠
      List.replicate MSG_SIZE 97 := by decide

/-- Claim C5 (amended): from any reachable state whose cursor is 0 (in
particular right after a line was published), delivering a sequence of
at least MSG_SIZE non-terminator, non-NUL bytes publishes no new line
(the publication log is unchanged) and leaves `read_last` returning the
first MSG_SIZE - 1 of the new bytes: the overwritten last line is gone,
and bytes beyond MSG_SIZE - 1 are discarded. -/
theorem claim_C5_amended (u cs : List Nat)
    (hpub : (uart_cb_rx initRx u).rx_buf_pos = 0)
    (hlong : MSG_SIZE ≤ cs.length)
    (hbytes : ∀ c ∈ cs, c ≠ LF ∧ c ≠ CR ∧ c ≠ 0) :
    read_last (uart_cb_rx (uart_cb_rx initRx u) cs) = cs.take (MSG_SIZE - 1) ∧
    (uart_cb_rx (uart_cb_rx initRx u) cs).published =
      (uart_cb_rx initRx u).published := by
  have hM : MSG_SIZE = 128 := rfl
  obtain ⟨hlen128, hlast0⟩ := uart_cb_rx_buf_inv u initRx (by decide) (by decide)
  have htklen : (cs.take (MSG_SIZE - 1)).length = MSG_SIZE - 1 := by
    rw [List.length_take]
    omega
  have hsplit : uart_cb_rx (uart_cb_rx initRx u) cs =
      uart_cb_rx (uart_cb_rx (uart_cb_rx initRx u) (cs.take (MSG_SIZE - 1)))
        (cs.drop (MSG_SIZE - 1)) := by
    conv_lhs => rw [← List.take_append_drop (MSG_SIZE - 1) cs]
    rw [uart_cb_rx_append]
  have heta : uart_cb_rx initRx u =
      (⟨(uart_cb_rx initRx u).rx_buf, 0, (uart_cb_rx initRx u).published⟩ :
        RxState) := by
    rw [← hpub]
  have hdrop : (uart_cb_rx initRx u).rx_buf.drop (MSG_SIZE - 1) = [0] := by
    refine drop_last_of_getD _ _ ?_ hlast0
    rw [hlen128]
    decide
  have hnt1 : ∀ c ∈ cs.take (MSG_SIZE - 1), c ≠ LF ∧ c ≠ CR :=
    fun c hc => ⟨(hbytes c (List.mem_of_mem_take hc)).1,
      (hbytes c (List.mem_of_mem_take hc)).2.1⟩
  have hacc := uart_cb_rx_accum (cs.take (MSG_SIZE - 1)) []
      ((uart_cb_rx initRx u).rx_buf) ((uart_cb_rx initRx u).published) hnt1
      (by simp only [List.length_nil, Nat.zero_add, htklen]; omega)
      (by rw [htklen, hlen128]; omega)
  rw [List.nil_append, List.nil_append, List.length_nil, Nat.zero_add,
    htklen, hdrop] at hacc
  have hrun1 : uart_cb_rx (uart_cb_rx initRx u) (cs.take (MSG_SIZE - 1)) =
      ⟨cs.take (MSG_SIZE - 1) ++ [0], MSG_SIZE - 1,
        (uart_cb_rx initRx u).published⟩ := by
    rw [heta] at hacc ⊢
    exact hacc
  have hnt2 : ∀ c ∈ cs.drop (MSG_SIZE - 1), c ≠ LF ∧ c ≠ CR := by
    intro c hc
    have hcm : c ∈ cs := List.mem_of_mem_drop hc
    exact ⟨(hbytes c hcm).1, (hbytes c hcm).2.1⟩
  have hstate : uart_cb_rx (uart_cb_rx initRx u) cs =
      ⟨cs.take (MSG_SIZE - 1) ++ [0], MSG_SIZE - 1,
        (uart_cb_rx initRx u).published⟩ := by
    rw [hsplit, hrun1,
      uart_cb_rx_full_drop (cs.drop (MSG_SIZE - 1)) _ rfl hnt2]
  constructor
  · rw [hstate, read_last]
    have h0 : ∀ c ∈ cs.take (MSG_SIZE - 1), c ≠ 0 :=
      fun c hc => (hbytes c (List.mem_of_mem_take hc)).2.2
    rw [show ([0] : List Nat) = 0 :: [] from rfl]
    rw [cString_append_of_ne _ _ h0, cString_cons_zero, List.append_nil]
  · rw [hstate]

/-- Witness for C5 (amended): after "ab" CR publishes "ab", delivering
129 non-terminator bytes x publishes nothing new and leaves read_last
at the first 127 x bytes. -/
theorem claim_C5_witness :
    read_last (uart_cb_rx (uart_cb_rx initRx [97, 98, CR])
        (List.replicate (MSG_SIZE + 1) 120)) =
      (List.replicate (MSG_SIZE + 1) 120).take (MSG_SIZE - 1) ∧
    (uart_cb_rx (uart_cb_rx initRx [97, 98, CR])
        (List.replicate (MSG_SIZE + 1) 120)).published =
      (uart_cb_rx initRx [97, 98, CR]).published :=
  claim_C5_amended [97, 98, CR] (List.replicate (MSG_SIZE + 1) 120)
    (by decide) (by decide) (by decide)

/-- Counterexample to C5 as stated: after the line "ab" is published,
delivering 129 terminator-free x bytes (more than the 128-byte buffer)
changes what `read_last` returns: the last published line "ab" is not
preserved, because `cmd_read_last` prints the live accumulation buffer,
which the new bytes overwrite. -/
theorem claim_C5_counterexample :
    read_last (uart_cb_rx initRx
        ([97, 98, CR] ++ List.replicate (MSG_SIZE + 1) 120)) ≠ [97, 98] := by
  decide

/-- Claim C6 (code bug): a terminator that arrives while the buffer is
empty falls into the append branch (the non-empty guard only protects
the publish branch), so it is stored as a data byte; the next
terminator then publishes the one-byte line CR.  On input a CR CR the
code leaves read_last = [CR] instead of the previous line [97], and on
a CR CR CR it publishes the line [CR]. -/
theorem claim_C6_bug :
    read_last (uart_cb_rx initRx [97, CR]) = [97] ∧
    read_last (uart_cb_rx initRx [97, CR, CR]) = [CR] ∧
    (uart_cb_rx initRx [97, CR, CR, CR]).published = [[97], [CR]] := by
  refine ⟨by decide, by decide, by decide⟩

/-- Claim C7 (code bug): the same slip makes the framer publish a line
that contains a terminator byte: delivering CR CR from the initial
state publishes the line [CR], and CR is a terminator. -/
theorem claim_C7_bug :
    (uart_cb_rx initRx [CR, CR]).published = [[CR]] ∧ CR ∈ [CR] := by
  refine ⟨by decide, by decide⟩

/-- Claim C8: the write cursor never exceeds MSG_SIZE - 1 along any
delivered byte sequence from the initial state, and once the buffer is
full (cursor = MSG_SIZE - 1) a non-terminator byte is dropped with the
whole state unchanged while a terminator resets the cursor to 0. -/
theorem claim_C8 :
    (∀ cs : List Nat, (uart_cb_rx initRx cs).rx_buf_pos ≤ MSG_SIZE - 1) ∧
    (∀ (s : RxState) (c : Nat), s.rx_buf_pos = MSG_SIZE - 1 →
      (¬(c = LF ∨ c = CR) → rxStep s c = s) ∧
      ((c = LF ∨ c = CR) → (rxStep s c).rx_buf_pos = 0)) := by
  constructor
  · intro cs
    exact uart_cb_rx_pos_le cs initRx (by decide)
  · intro s c hp
    constructor
    · intro hnt
      rw [rxStep]
      rw [if_neg (fun h => hnt h.1)]
      rw [if_neg (by rw [hp]; omega)]
    · intro ht
      rw [rxStep]
      rw [if_pos ⟨ht, by rw [hp]; decide⟩]

/-- Witness for C8 at concrete inputs: a short delivered sequence, a
dropped data byte at a full buffer, and a terminator resetting it. -/
theorem claim_C8_witness :
    (uart_cb_rx initRx [97, CR, 98]).rx_buf_pos ≤ MSG_SIZE - 1 ∧
    rxStep ⟨List.replicate MSG_SIZE 1, MSG_SIZE - 1, []⟩ 97 =
      ⟨List.replicate MSG_SIZE 1, MSG_SIZE - 1, []⟩ ∧
    (rxStep ⟨List.replicate MSG_SIZE 1, MSG_SIZE - 1, []⟩ CR).rx_buf_pos = 0 :=
  ⟨claim_C8.1 [97, CR, 98],
    (claim_C8.2 ⟨List.replicate MSG_SIZE 1, MSG_SIZE - 1, []⟩ 97 rfl).1
      (by decide),
    (claim_C8.2 ⟨List.replicate MSG_SIZE 1, MSG_SIZE - 1, []⟩ CR rfl).2
      (by decide)⟩

/-- Shape of the send buffer built by `cmd_send_string` for an accepted
payload: memset to zero, strncpy of the payload, then CR and LF written
over the first two zeros after it. -/
theorem send_buf_shape (payload : List Nat)
    (hlen : payload.length < MAX_BUFFER_SIZE - 2) :
    ((payload ++ List.replicate (MAX_BUFFER_SIZE - payload.length) 0).set
        payload.length CR).set (payload.length + 1) LF =
      payload ++ CR :: LF ::
        List.replicate (MAX_BUFFER_SIZE - payload.length - 2) 0 := by
  have hM : MAX_BUFFER_SIZE = 256 := rfl
  have hrep : MAX_BUFFER_SIZE - payload.length =
      (MAX_BUFFER_SIZE - payload.length - 2) + 1 + 1 := by omega
  generalize hK : MAX_BUFFER_SIZE - payload.length - 2 = K at hrep ⊢
  rw [hrep, List.replicate_succ, List.replicate_succ]
  rw [set_append_len, List.set_cons_zero, set_append_add]
  rw [List.set_cons_succ, List.set_cons_zero]

/-- The first `payload.length + 2` bytes of the built buffer are the
payload followed by CR and LF. -/
theorem send_buf_take (payload : List Nat) (k : Nat) :
    (payload ++ CR :: LF :: List.replicate k 0).take (payload.length + 2) =
      payload ++ [CR, LF] := by
  have h : payload ++ CR :: LF :: List.replicate k 0 =
      (payload ++ [CR, LF]) ++ List.replicate k 0 := by simp
  have h2 : payload.length + 2 = (payload ++ [CR, LF]).length + 0 := by simp
  rw [h, h2, List.take_append, List.take_zero, List.append_nil]

/-- Accepted-payload path of `cmd_send_string`: the buffer is built and
handed to `uart_send_string` with length `input_len + 2`. -/
theorem cmd_send_accept (ready completes : Bool) (payload : List Nat)
    (s : SysState) (hlen : payload.length < MAX_BUFFER_SIZE - 2) :
    cmd_send_string ready completes payload s =
      uart_send_string ready completes
        (payload ++ CR :: LF ::
          List.replicate (MAX_BUFFER_SIZE - payload.length - 2) 0)
        (payload.length + 2)
        { s with string_buffer := payload ++ CR :: LF ::
            List.replicate (MAX_BUFFER_SIZE - payload.length - 2) 0 } := by
  simp only [cmd_send_string, if_pos hlen, send_buf_shape payload hlen]

/-- Return of `uart_send_string` when the device is not ready. -/
theorem uart_send_string_notready (completes : Bool) (str : List Nat)
    (len : Nat) (s : SysState) :
    uart_send_string false completes str len s = (some (-ENODEV), s) := rfl

/-- In the sequential embedding a send entered while `tx_busy` is set
spins forever (the result `none`). -/
theorem uart_send_string_blocked (completes : Bool) (str : List Nat)
    (len : Nat) (s : SysState) (hb : s.tx_busy = true) :
    uart_send_string true completes str len s = (none, s) := by
  rw [uart_send_string, if_neg (by decide), if_pos hb]

/-- Successful send: all `len` bytes reach the transport, the semaphore
rendezvous succeeds, and the busy flag ends cleared. -/
theorem uart_send_string_completes (str : List Nat) (len : Nat) (s : SysState)
    (hb : s.tx_busy = false) :
    uart_send_string true true str len s =
      (some 0, { s with tx_busy := false, sent := s.sent ++ str.take len }) := by
  rw [uart_send_string, if_neg (by decide), if_neg (by rw [hb]; decide)]
  rw [if_pos rfl]

/-- Timeout: all `len` bytes reach the transport, `k_sem_take` returns
-EAGAIN, and the busy flag is left set. -/
theorem uart_send_string_timeout (str : List Nat) (len : Nat) (s : SysState)
    (hb : s.tx_busy = false) :
    uart_send_string true false str len s =
      (some (-EAGAIN), { s with tx_busy := true, sent := s.sent ++ str.take len }) := by
  rw [uart_send_string, if_neg (by decide), if_neg (by rw [hb]; decide)]
  rw [if_neg (by decide)]

/-- A send that returned success appended exactly its first `len` bytes
to the transport log. -/
theorem uart_send_ok_sent (ready completes : Bool) (str : List Nat)
    (len : Nat) (s : SysState)
    (hok : (uart_send_string ready completes str len s).1 = some 0) :
    (uart_send_string ready completes str len s).2.sent =
      s.sent ++ str.take len := by
  cases ready with
  | false =>
    rw [uart_send_string_notready] at hok
    simp [ENODEV] at hok
  | true =>
    by_cases hb : s.tx_busy = true
    · rw [uart_send_string_blocked _ _ _ _ hb] at hok
      simp at hok
    · have hb' : s.tx_busy = false := by
        cases hx : s.tx_busy with
        | false => rfl
        | true => exact absurd hx hb
      cases completes with
      | false =>
        rw [uart_send_string_timeout _ _ _ hb'] at hok
        simp [EAGAIN] at hok
      | true =>
        rw [uart_send_string_completes _ _ _ hb']

/-- Claim C1: for every payload of length at most MAX_BUFFER_SIZE - 2,
if the shell send command returns success then the transport received
exactly the payload followed by CR then LF, appended in order to what
it had seen before, with no byte lost or added. -/
theorem claim_C1 (payload : List Nat) (ready completes : Bool) (s : SysState)
    (hlen : payload.length ≤ MAX_BUFFER_SIZE - 2)
    (hok : (cmd_send_string ready completes payload s).1 = some 0) :
    (cmd_send_string ready completes payload s).2.sent =
      s.sent ++ payload ++ [CR, LF] := by
  have hM : MAX_BUFFER_SIZE = 256 := rfl
  by_cases hcase : payload.length < MAX_BUFFER_SIZE - 2
  · rw [cmd_send_accept ready completes payload s hcase] at hok ⊢
    rw [uart_send_ok_sent _ _ _ _ _ hok]
    simp only [send_buf_take]
    simp [List.append_assoc]
  · exfalso
    simp only [cmd_send_string, if_neg hcase] at hok
    simp [EINVAL] at hok

/-- Witness for C1 at the spec's concrete scenario: send "hi" succeeds
and the transport sees h, i, CR, LF. -/
theorem claim_C1_witness :
    (cmd_send_string true true [104, 105] initSys).2.sent =
      initSys.sent ++ [104, 105] ++ [CR, LF] :=
  claim_C1 [104, 105] true true initSys (by decide) (by decide)

/-- Claim C3 (amended): an over-long payload is rejected with -EINVAL,
the transport is not invoked, and the busy flag, semaphore and receive
state are untouched — but the Send Buffer is NOT unchanged: the
unconditional memset before the length check has already zeroed it. -/
theorem claim_C3_amended (ready completes : Bool) (payload : List Nat)
    (s : SysState) (hlen : MAX_BUFFER_SIZE - 2 < payload.length) :
    (cmd_send_string ready completes payload s).1 = some (-EINVAL) ∧
    (cmd_send_string ready completes payload s).2.string_buffer =
      List.replicate MAX_BUFFER_SIZE 0 ∧
    (cmd_send_string ready completes payload s).2.tx_busy = s.tx_busy ∧
    (cmd_send_string ready completes payload s).2.tx_done_sem = s.tx_done_sem ∧
    (cmd_send_string ready completes payload s).2.rx = s.rx ∧
    (cmd_send_string ready completes payload s).2.sent = s.sent := by
  have hM : MAX_BUFFER_SIZE = 256 := rfl
  have hr : ¬ payload.length < MAX_BUFFER_SIZE - 2 := by omega
  simp only [cmd_send_string, if_neg hr]
  refine ⟨?_, ?_, ?_, ?_, ?_, ?_⟩ <;> trivial

/-- Witness for C3 (amended) at a concrete 255-byte payload. -/
theorem claim_C3_witness :
    (cmd_send_string true true (List.replicate 255 97) initSys).1 =
      some (-EINVAL) ∧
    (cmd_send_string true true (List.replicate 255 97) initSys).2.string_buffer =
      List.replicate MAX_BUFFER_SIZE 0 ∧
    (cmd_send_string true true (List.replicate 255 97) initSys).2.tx_busy =
      initSys.tx_busy ∧
    (cmd_send_string true true (List.replicate 255 97) initSys).2.tx_done_sem =
      initSys.tx_done_sem ∧
    (cmd_send_string true true (List.replicate 255 97) initSys).2.rx =
      initSys.rx ∧
    (cmd_send_string true true (List.replicate 255 97) initSys).2.sent =
      initSys.sent :=
  claim_C3_amended true true (List.replicate 255 97) initSys (by decide)

/-- A system state whose send buffer holds non-zero bytes, to exhibit
the buffer mutation on the rejection path. -/
def dirtySys : SysState :=
  { initSys with string_buffer := List.replicate MAX_BUFFER_SIZE 1 }

/-- Counterexample to C3 as stated: a 255-byte payload (length >
capacity - 2) is rejected, yet the Send Buffer is mutated — the
unconditional memset zeroes its previous contents. -/
theorem claim_C3_counterexample :
    MAX_BUFFER_SIZE - 2 < (List.replicate 255 97).length ∧
    (cmd_send_string true true (List.replicate 255 97) dirtySys).2.string_buffer ≠
      dirtySys.string_buffer := by
  refine ⟨by decide, by decide⟩

/-- Claim C4 (amended): the acceptance condition of the shell send
command is exactly `length + 2 < capacity` (the buffer must also hold
the NUL of the C string): such payloads are passed to the transmit
coordinator (here run to success), and payloads with
`length + 2 ≥ capacity` are rejected as too long with the transport
never invoked. -/
theorem claim_C4_amended (payload : List Nat) (s : SysState)
    (hb : s.tx_busy = false) :
    (payload.length + 2 < MAX_BUFFER_SIZE →
      (cmd_send_string true true payload s).1 = some 0 ∧
      (cmd_send_string true true payload s).2.sent =
        s.sent ++ payload ++ [CR, LF]) ∧
    (MAX_BUFFER_SIZE ≤ payload.length + 2 →
      ∀ ready completes : Bool,
        (cmd_send_string ready completes payload s).1 = some (-EINVAL) ∧
        (cmd_send_string ready completes payload s).2.sent = s.sent) := by
  have hM : MAX_BUFFER_SIZE = 256 := rfl
  constructor
  · intro hlt
    have hcase : payload.length < MAX_BUFFER_SIZE - 2 := by omega
    rw [cmd_send_accept true true payload s hcase]
    rw [uart_send_string_completes
      (payload ++ CR :: LF ::
        List.replicate (MAX_BUFFER_SIZE - payload.length - 2) 0)
      (payload.length + 2)
      { s with string_buffer := payload ++ CR :: LF ::
          List.replicate (MAX_BUFFER_SIZE - payload.length - 2) 0 }
      hb]
    refine ⟨rfl, ?_⟩
    simp only [send_buf_take]
    simp [List.append_assoc]
  · intro hge ready completes
    have hr : ¬ payload.length < MAX_BUFFER_SIZE - 2 := by omega
    simp only [cmd_send_string, if_neg hr]
    refine ⟨?_, ?_⟩ <;> trivial

/-- Witness for C4 (amended): "hi" (2 + 2 < 256) is accepted and sent;
a 254-byte payload (254 + 2 = 256) is rejected. -/
theorem claim_C4_witness :
    ((cmd_send_string true true [104, 105] initSys).1 = some 0 ∧
      (cmd_send_string true true [104, 105] initSys).2.sent =
        initSys.sent ++ [104, 105] ++ [CR, LF]) ∧
    ((cmd_send_string true true (List.replicate 254 97) initSys).1 =
        some (-EINVAL) ∧
      (cmd_send_string true true (List.replicate 254 97) initSys).2.sent =
        initSys.sent) :=
  ⟨(claim_C4_amended [104, 105] initSys rfl).1 (by decide),
    (claim_C4_amended (List.replicate 254 97) initSys rfl).2 (by decide)
      true true⟩

/-- Counterexample to C4 as stated: a 254-byte payload satisfies
`length + 2 ≤ capacity` yet the command rejects it as too long and the
transport is never invoked, because the code tests
`input_len < MAX_BUFFER_SIZE - 2` strictly. -/
theorem claim_C4_counterexample :
    (List.replicate 254 97).length + 2 ≤ MAX_BUFFER_SIZE ∧
    (cmd_send_string true true (List.replicate 254 97) dirtySys).1 =
      some (-EINVAL) ∧
    (cmd_send_string true true (List.replicate 254 97) dirtySys).2.sent =
      dirtySys.sent := by
  refine ⟨by decide, by decide, by decide⟩

/-- Claim C9: when the completion signal is not given within the
timeout, `uart_send_string` returns -EAGAIN — a failure distinct from
success and from the not-ready code -ENODEV — and the busy flag is left
set to true on this return path. -/
theorem claim_C9 (str : List Nat) (len : Nat) (s : SysState)
    (hb : s.tx_busy = false) :
    (uart_send_string true false str len s).1 = some (-EAGAIN) ∧
    (uart_send_string true false str len s).2.tx_busy = true ∧
    (-EAGAIN : Int) ≠ 0 ∧ (-EAGAIN : Int) ≠ -ENODEV := by
  rw [uart_send_string_timeout str len s hb]
  exact ⟨rfl, rfl, by decide, by decide⟩

/-- Witness for C9 at a concrete one-byte send from the idle state. -/
theorem claim_C9_witness :
    (uart_send_string true false [104] 1 initSys).1 = some (-EAGAIN) ∧
    (uart_send_string true false [104] 1 initSys).2.tx_busy = true ∧
    (-EAGAIN : Int) ≠ 0 ∧ (-EAGAIN : Int) ≠ -ENODEV :=
  claim_C9 [104] 1 initSys rfl

example : read_last (uart_cb_rx initRx [97, 98, 13]) = [97, 98] := by decide

example : read_last (uart_cb_rx initRx [97, 13, 13]) = [13] := by decide

example : (uart_cb_rx initRx [13, 13]).published = [[13]] := by decide

example :
    (cmd_send_string true true [104, 105] initSys).2.sent = [104, 105, 13, 10] := by
  decide

example : (cmd_send_string true true [104, 105] initSys).1 = some 0 := by decide

end UsbUart
